import Mathlib

/-!
Verification of the YouTube transcript service (`src/app/api/transcript/route.ts`
and `src/app/page.tsx`) against its design document.

The TypeScript code is shallowly embedded: pure string manipulation (identifier
extraction, trimming, track selection, timed-text normalization) is translated
directly; every outbound network interaction is represented by an explicit
oracle argument (the outcome each upstream call would produce), so that the
control flow of the handlers becomes a pure function of those outcomes.
-/

namespace YT

/-! ## Character classes

`idChar` is the character class `[a-zA-Z0-9_-]` of the two extraction regexes.
`isWs` is the set of characters removed by JavaScript `String.prototype.trim`.
-/

/-- The regex character class `[a-zA-Z0-9_-]` used by both patterns of
`extractVideoId`. -/
def idChar (c : Char) : Bool :=
  decide (65 ≤ c.toNat ∧ c.toNat ≤ 90) ||
  decide (97 ≤ c.toNat ∧ c.toNat ≤ 122) ||
  decide (48 ≤ c.toNat ∧ c.toNat ≤ 57) ||
  decide (c.toNat = 95) || decide (c.toNat = 45)

/-- JavaScript whitespace: the characters stripped by `String.prototype.trim`. -/
def isWs (c : Char) : Bool :=
  decide (9 ≤ c.toNat ∧ c.toNat ≤ 13) ||
  decide (c.toNat = 32) || decide (c.toNat = 160) || decide (c.toNat = 5760) ||
  decide (8192 ≤ c.toNat ∧ c.toNat ≤ 8202) ||
  decide (c.toNat = 8232) || decide (c.toNat = 8233) ||
  decide (c.toNat = 8239) || decide (c.toNat = 8287) ||
  decide (c.toNat = 12288) || decide (c.toNat = 65279)

/-- JavaScript `String.prototype.trim` on a character list: drop whitespace
from both ends. -/
def jsTrimL (cs : List Char) : List Char :=
  ((cs.dropWhile isWs).reverse.dropWhile isWs).reverse

/-- JavaScript `String.prototype.trim`. -/
def jsTrim (s : String) : String := String.mk (jsTrimL s.data)

/-! ## Identifier extraction (route.ts, `extractVideoId`, lines 3-13)

The first regex
`/(?:youtube\.com\/watch\?v=|youtu\.be\/|youtube\.com\/embed\/|youtube\.com\/v\/)([a-zA-Z0-9_-]{11})/`
is an unanchored search: at each start position (leftmost first) the four
literal alternatives are tried in order, each followed by exactly eleven
characters of the id class, which are captured.  The second regex
`/^([a-zA-Z0-9_-]{11})$/` matches a bare identifier.
-/

/-- The four literal alternatives of the first pattern, in regex order. -/
def watchPat : List Char := "youtube.com/watch?v=".data

def shortPat : List Char := "youtu.be/".data

def embedPat : List Char := "youtube.com/embed/".data

def vPat : List Char := "youtube.com/v/".data

/-- Match a literal at the head of the input, returning the rest. -/
def dropLit : List Char → List Char → Option (List Char)
  | [], cs => some cs
  | _ :: _, [] => none
  | l :: ls, c :: cs => if c = l then dropLit ls cs else none

/-- Match `[a-zA-Z0-9_-]{11}` at the head of the input and capture it. -/
def captureId (cs : List Char) : Option (List Char) :=
  let t := cs.take 11
  if t.length == 11 && t.all idChar then some t else none

/-- Try one alternative of the first pattern at the current position. -/
def tryPat (lit cs : List Char) : Option (List Char) :=
  (dropLit lit cs).bind captureId

/-- Try the four alternatives of the first pattern, in order, at the current
position. -/
def tryAt (cs : List Char) : Option (List Char) :=
  match tryPat watchPat cs with
  | some r => some r
  | none =>
    match tryPat shortPat cs with
    | some r => some r
    | none =>
      match tryPat embedPat cs with
      | some r => some r
      | none => tryPat vPat cs

/-- Unanchored search of the first pattern: leftmost start position wins. -/
def scanMatch : List Char → Option (List Char)
  | [] => none
  | c :: cs =>
    match tryAt (c :: cs) with
    | some r => some r
    | none => scanMatch cs

/-- `extractVideoId` (route.ts lines 3-13): try the URL pattern, then the
bare-identifier pattern; return the captured group of the first match, else
`none` (the TypeScript `null`). -/
def extractVideoId (url : String) : Option String :=
  match scanMatch url.data with
  | some cap => some (String.mk cap)
  | none =>
    if url.data.length == 11 && url.data.all idChar then some url else none

/-! ## Caption data model (route.ts lines 38-47) -/

/-- `CaptionTrack` (route.ts lines 38-42); `name?.simpleText` is carried but
never read by the logic. -/
structure CaptionTrack where
  languageCode : String
  baseUrl : String
  name : Option String := none
deriving DecidableEq

/-- One element of the `segs` array of a timed-text event. -/
structure TranscriptSeg where
  utf8 : String
deriving DecidableEq

/-- `TranscriptEvent` (route.ts lines 44-47): start offset in milliseconds and
an optional segment array. -/
structure TranscriptEvent where
  tStartMs : Int
  segs : Option (List TranscriptSeg)
deriving DecidableEq

/-- One output line: `{ time, text }` with `time` in seconds. -/
structure TranscriptLine where
  time : ℚ
  text : String
deriving DecidableEq

/-! ## Track selection and normalization (route.ts, `downloadTranscript`) -/

/-- Track selection (route.ts lines 139-140):
`tracks.find((t) => t.languageCode === "en") || tracks[0]`.
`none` corresponds to `undefined` (empty input). -/
def selectTrack (tracks : List CaptionTrack) : Option CaptionTrack :=
  match tracks.find? (fun t => t.languageCode == "en") with
  | some t => some t
  | none => tracks.head?

/-- `e.segs!.map((s) => s.utf8).join("")` (route.ts line 151). -/
def concatSegs (segs : List TranscriptSeg) : String :=
  String.join (segs.map (fun s => s.utf8))

/-- The normalization chain of `downloadTranscript` (route.ts lines 147-153):
keep events that have a `segs` array, convert each to
`{ time: tStartMs / 1000, text: concatenated segments }`, then drop lines
whose text trims to the empty string. -/
def normalizeEvents (events : List TranscriptEvent) : List TranscriptLine :=
  ((events.filter (fun e => e.segs.isSome)).map
    (fun e => { time := (e.tStartMs : ℚ) / 1000, text := concatSegs (e.segs.getD []) })).filter
    (fun line => !(jsTrim line.text == ""))

/-- The normalization step as the design document words it: walk the events in
order; skip an event with no segment sub-array; otherwise emit
`time = start offset / 1000` and the in-order concatenation of the fragments,
dropping a line whose text is empty after trimming. -/
def specNormalize : List TranscriptEvent → List TranscriptLine
  | [] => []
  | e :: rest =>
    match e.segs with
    | none => specNormalize rest
    | some segs =>
      if jsTrim (concatSegs segs) = "" then specNormalize rest
      else { time := (e.tStartMs : ℚ) / 1000, text := concatSegs segs } :: specNormalize rest

/-! ## The download step (route.ts, `downloadTranscript`, lines 137-154)

The single outbound request of `downloadTranscript` is represented by a
`fetchJson` oracle mapping the requested URL to what `await (await
fetch(url)).json()` would produce: a failure (network error or invalid JSON)
or a parsed payload whose `events` field may be absent.
-/

/-- A parsed timed-text response body; `events` is `none` when the parsed JSON
has no `events` field. -/
structure TimedTextPayload where
  events : Option (List TranscriptEvent)
deriving DecidableEq

/-- Outcome of `await (await fetch(url)).json()` for the timed-text request. -/
inductive FetchJsonResult where
  | failure
  | payload (p : TimedTextPayload)
deriving DecidableEq

/-- Result of `downloadTranscript`: resolved lines, the `NO_TRANSCRIPT` throw
(route.ts line 145), or any other throw (network/JSON failure, or the
`TypeError` of reading `baseUrl` from `undefined` when the list is empty). -/
inductive DownloadResult where
  | ok (lines : List TranscriptLine)
  | noTranscript
  | failure
deriving DecidableEq

/-- `downloadTranscript` (route.ts lines 137-154). -/
def downloadTranscript (fetchJson : String → FetchJsonResult)
    (tracks : List CaptionTrack) : DownloadResult :=
  match selectTrack tracks with
  | none => .failure
  | some track =>
    match fetchJson (track.baseUrl ++ "&fmt=json3") with
    | .failure => .failure
    | .payload p =>
      match p.events with
      | none => .noTranscript
      | some evs => .ok (normalizeEvents evs)

/-! ## The strategy chain (route.ts, `fetchTranscript`, lines 156-172)

Each of the three strategies (`fetchViaIOS`, `fetchViaWebPage`,
`fetchViaWebAPI`) either throws or resolves with a caption-track list or
`null`.  The chain is a pure function of the per-strategy outcomes (in the
fixed order iOS, page-scrape, web-API) and of the timed-text oracle.
-/

/-- Outcome of awaiting one strategy: a throw (with its message) or a resolved
value (`none` is the TypeScript `null`). -/
inductive StrategyOutcome where
  | threw (msg : String)
  | returned (tracks : Option (List CaptionTrack))
deriving DecidableEq

/-- A strategy outcome that does not produce a non-empty descriptor list:
a throw, a `null`, or an empty list. -/
def unproductive : StrategyOutcome → Bool
  | .threw _ => true
  | .returned none => true
  | .returned (some tracks) => tracks.isEmpty

/-- `fetchTranscript` (route.ts lines 156-172).  `none` is the final
`NO_TRANSCRIPT` throw.  Note that the `try` block of the loop also wraps
`downloadTranscript`, so a failed download falls through to the next
strategy. -/
def fetchTranscript (fetchJson : String → FetchJsonResult) :
    List StrategyOutcome → Option (List TranscriptLine)
  | [] => none
  | .threw _ :: rest => fetchTranscript fetchJson rest
  | .returned none :: rest => fetchTranscript fetchJson rest
  | .returned (some tracks) :: rest =>
    if 0 < tracks.length then
      match downloadTranscript fetchJson tracks with
      | .ok lines => some lines
      | _ => fetchTranscript fetchJson rest
    else fetchTranscript fetchJson rest

/-- Ghost observation of the same loop: how many strategies are awaited before
`fetchTranscript` returns or exhausts the chain. -/
def strategiesAttempted (fetchJson : String → FetchJsonResult) :
    List StrategyOutcome → Nat
  | [] => 0
  | .threw _ :: rest => strategiesAttempted fetchJson rest + 1
  | .returned none :: rest => strategiesAttempted fetchJson rest + 1
  | .returned (some tracks) :: rest =>
    if 0 < tracks.length then
      match downloadTranscript fetchJson tracks with
      | .ok _ => 1
      | _ => strategiesAttempted fetchJson rest + 1
    else strategiesAttempted fetchJson rest + 1

/-! ## Per-strategy response processing (route.ts lines 49-135)

Each strategy issues its request(s) and then computes its return value from
the parsed player response.  That per-response logic is embedded here; the
response itself (the result of the outbound call) is the argument.  Nested
optional JSON fields are `Option`s: an absent field at any level is `none`.
-/

/-- `playabilityStatus` with its optional `status` field. -/
structure PlayabilityStatus where
  status : Option String
deriving DecidableEq

/-- `captions.playerCaptionsTracklistRenderer` with its optional
`captionTracks` field. -/
structure TracklistRenderer where
  captionTracks : Option (List CaptionTrack)
deriving DecidableEq

/-- The `captions` field. -/
structure PlayerCaptions where
  playerCaptionsTracklistRenderer : Option TracklistRenderer
deriving DecidableEq

/-- A parsed player response, restricted to the fields the code reads. -/
structure PlayerResponse where
  playabilityStatus : Option PlayabilityStatus
  captions : Option PlayerCaptions
deriving DecidableEq

/-- `data.playabilityStatus?.status !== "OK"` is the guard; this is its
negation: the status field is present and equals `"OK"`. -/
def playabilityOk (data : PlayerResponse) : Bool :=
  (data.playabilityStatus.bind (fun s => s.status)) == some ("OK")

/-- `data?.captions?.playerCaptionsTracklistRenderer?.captionTracks || null`
(an empty array is truthy in JavaScript, so it is returned as is). -/
def captionTracksPath (data : PlayerResponse) : Option (List CaptionTrack) :=
  (data.captions.bind (fun c => c.playerCaptionsTracklistRenderer)).bind
    (fun r => r.captionTracks)

/-- `fetchViaIOS` response processing (route.ts lines 74-78): reject when the
playability status is not `"OK"`, otherwise read the caption-track path. -/
def fetchViaIOS (data : PlayerResponse) : Option (List CaptionTrack) :=
  if playabilityOk data then captionTracksPath data else none

/-- `fetchViaWebAPI` response processing (route.ts lines 130-134): same guard
and path as the iOS strategy. -/
def fetchViaWebAPI (data : PlayerResponse) : Option (List CaptionTrack) :=
  if playabilityOk data then captionTracksPath data else none

/-- `fetchViaWebPage` response processing (route.ts lines 92-107): the argument
is the result of pattern-matching `ytInitialPlayerResponse` out of the page
HTML and `JSON.parse`-ing it (`none` when the pattern does not match or the
parse throws).  There is no playability guard on this path. -/
def fetchViaWebPage (player : Option PlayerResponse) : Option (List CaptionTrack) :=
  player.bind captionTracksPath

/-! ## Metadata lookup (route.ts, `fetchVideoMeta`, lines 15-36) -/

/-- Outcome of the oEmbed request: rejected fetch, non-ok HTTP status, a
`res.json()` throw, or a parsed payload whose `title` may be absent. -/
inductive OembedOutcome where
  | networkError
  | httpNotOk
  | malformedPayload
  | payload (title : Option String)
deriving DecidableEq

/-- The failure modes of the metadata lookup. -/
def oembedFailed : OembedOutcome → Bool
  | .networkError => true
  | .httpNotOk => true
  | .malformedPayload => true
  | .payload _ => false

/-- `VideoMeta`: the `{ title, thumbnail }` value built by `fetchVideoMeta`. -/
structure VideoMeta where
  title : String
  thumbnail : String
deriving DecidableEq

/-- The placeholder title used on every fallback path. -/
def placeholderTitle : String := "YouTube Video"

/-- The thumbnail URL, always built from the identifier alone. -/
def thumbnailUrl (videoId : String) : String :=
  "https://i.ytimg.com/vi/" ++ videoId ++ "/hqdefault.jpg"

/-- `fetchVideoMeta` (route.ts lines 15-36).  Every failure path returns the
placeholder title; the thumbnail never depends on the lookup.  A present but
empty `title` is falsy in JavaScript, hence also replaced. -/
def fetchVideoMeta (videoId : String) (oembed : OembedOutcome) : VideoMeta :=
  match oembed with
  | .networkError => ⟨placeholderTitle, thumbnailUrl videoId⟩
  | .httpNotOk => ⟨placeholderTitle, thumbnailUrl videoId⟩
  | .malformedPayload => ⟨placeholderTitle, thumbnailUrl videoId⟩
  | .payload title =>
    match title with
    | none => ⟨placeholderTitle, thumbnailUrl videoId⟩
    | some t => if t = "" then ⟨placeholderTitle, thumbnailUrl videoId⟩ else ⟨t, thumbnailUrl videoId⟩

/-! ## The HTTP boundary (route.ts, `POST`, lines 174-215) -/

/-- A JSON response body: either `{ error }` or the success shape
`{ title, thumbnail, videoId, transcript }`. -/
inductive ResponseBody where
  | errorBody (error : String)
  | successBody (title thumbnail videoId : String) (transcript : List TranscriptLine)
deriving DecidableEq

/-- An HTTP response: status code and JSON body. -/
structure HttpResponse where
  status : Nat
  body : ResponseBody
deriving DecidableEq

/-- Error message for a missing (or falsy) `url` field. -/
def urlRequiredMsg : String := "URL is required"

/-- Error message when identifier extraction fails. -/
def invalidUrlMsg : String := "Invalid YouTube URL"

/-- The human-readable no-transcript message of the 422 response. -/
def noTranscriptMsg : String :=
  "No transcript available for this video. It may not have captions enabled, or YouTube may be blocking server access."

/-- `POST` (route.ts lines 174-215) as a pure function of the request's `url`
field and of the outcomes of the outbound calls.  `url = none` is an absent
field; the empty string is falsy in JavaScript, so both hit the 400
`URL is required` branch.  The metadata lookup and the transcript retrieval
run under `Promise.all`; since `fetchVideoMeta` never rejects, the combined
result is a 422 exactly when the chain exhausts, and a 200 otherwise. -/
def POST (url : Option String) (oembed : OembedOutcome)
    (strategyOutcomes : List StrategyOutcome)
    (fetchJson : String → FetchJsonResult) : HttpResponse :=
  match url with
  | none => ⟨400, .errorBody urlRequiredMsg⟩
  | some u =>
    if u = "" then ⟨400, .errorBody urlRequiredMsg⟩
    else
      match extractVideoId (jsTrim u) with
      | none => ⟨400, .errorBody invalidUrlMsg⟩
      | some videoId =>
        match fetchTranscript fetchJson strategyOutcomes with
        | none => ⟨422, .errorBody noTranscriptMsg⟩
        | some transcript =>
          let meta := fetchVideoMeta videoId oembed
          ⟨200, .successBody meta.title meta.thumbnail videoId transcript⟩

/-! ## The presentation layer (page.tsx) -/

/-- `isYouTubeUrl` (page.tsx lines 23-25):
`/(?:youtube\.com\/watch\?v=|youtu\.be\/|youtube\.com\/embed\/)/.test(text.trim())`
— a plain substring test for one of three literals; note the absence of the
`youtube.com/v/` alternative and of the bare-identifier pattern. -/
def hasLit (lit : List Char) : List Char → Bool
  | [] => (dropLit lit []).isSome
  | c :: cs => (dropLit lit (c :: cs)).isSome || hasLit lit cs

/-- `isYouTubeUrl` (page.tsx lines 23-25). -/
def isYouTubeUrl (text : String) : Bool :=
  hasLit watchPat (jsTrim text).data ||
  hasLit shortPat (jsTrim text).data ||
  hasLit embedPat (jsTrim text).data

/-- What the UI `fetchTranscript` callback does before any network activity. -/
inductive UiAction where
  | noop
  | showError (msg : String)
  | request (url : String)
deriving DecidableEq

/-- The UI validation error message (page.tsx line 39). -/
def uiInvalidMsg : String := "Please enter a valid YouTube URL"

/-- The guard prefix of the UI `fetchTranscript` callback (page.tsx lines
36-41): return silently on blank input, show an error when the plausibility
check fails, otherwise send the POST request. -/
def uiFetchTranscript (targetUrl : String) : UiAction :=
  if jsTrim targetUrl = "" then .noop
  else if !(isYouTubeUrl targetUrl) then .showError uiInvalidMsg
  else .request targetUrl

/-! ## Basic lemmas about the matching primitives -/

theorem dropLit_append (lit cs : List Char) : dropLit lit (lit ++ cs) = some cs := by
  induction lit with
  | nil => rfl
  | cons l ls ih => simp [dropLit, ih]

theorem dropLit_eq_some_iff {lit cs r : List Char} :
    dropLit lit cs = some r ↔ cs = lit ++ r := by
  induction lit generalizing cs with
  | nil => cases cs <;> simp [dropLit]
  | cons l ls ih =>
    cases cs with
    | nil => simp [dropLit]
    | cons c cs' =>
      by_cases h : c = l
      · subst h
        simp [dropLit, ih]
      · simp [dropLit, h, Ne.symm h]

theorem captureId_append {v : List Char} (t : List Char) (hlen : v.length = 11)
    (hv : ∀ c ∈ v, idChar c = true) : captureId (v ++ t) = some v := by
  have htake : (v ++ t).take 11 = v := by
    rw [← hlen]
    exact List.take_left v t
  simp only [captureId, htake, hlen, beq_self_eq_true, Bool.true_and, List.all_eq_true]
  exact if_pos hv

/-- A successful literal match inside an all-id-class string is impossible,
because every URL literal contains a dot and the id class has none. -/
theorem tryPat_none_of_idChar {lit cs : List Char} (hdot : ('.' : Char) ∈ lit)
    (hcs : ∀ c ∈ cs, idChar c = true) : tryPat lit cs = none := by
  cases h : dropLit lit cs with
  | none => simp [tryPat, h]
  | some r =>
    exfalso
    have hsub := dropLit_eq_some_iff.mp h
    have hd : ('.' : Char) ∈ cs := hsub ▸ List.mem_append_left r hdot
    exact absurd (hcs _ hd) (by decide)

theorem tryAt_none_of_idChar {cs : List Char} (hcs : ∀ c ∈ cs, idChar c = true) :
    tryAt cs = none := by
  rw [tryAt, tryPat_none_of_idChar (by decide) hcs, tryPat_none_of_idChar (by decide) hcs,
    tryPat_none_of_idChar (by decide) hcs, tryPat_none_of_idChar (by decide) hcs]

theorem scanMatch_none_of_idChar {cs : List Char} (hcs : ∀ c ∈ cs, idChar c = true) :
    scanMatch cs = none := by
  induction cs with
  | nil => rfl
  | cons c rest ih =>
    simp only [scanMatch]
    rw [tryAt_none_of_idChar hcs]
    exact ih fun x hx => hcs x (List.mem_cons_of_mem c hx)

theorem hasLit_eq_false_of_idChar {lit cs : List Char} (hdot : ('.' : Char) ∈ lit)
    (hcs : ∀ c ∈ cs, idChar c = true) : hasLit lit cs = false := by
  induction cs with
  | nil =>
    cases lit with
    | nil => simp at hdot
    | cons l ls => rfl
  | cons c rest ih =>
    simp only [hasLit, Bool.or_eq_false_iff]
    constructor
    · cases h : dropLit lit (c :: rest) with
      | none => rfl
      | some r =>
        exfalso
        have hsub := dropLit_eq_some_iff.mp h
        have hd : ('.' : Char) ∈ c :: rest := hsub ▸ List.mem_append_left r hdot
        exact absurd (hcs _ hd) (by decide)
    · exact ih fun x hx => hcs x (List.mem_cons_of_mem c hx)

/-! ## Trimming lemmas -/

theorem idChar_isWs {c : Char} (h : idChar c = true) : isWs c = false := by
  have key : isWs c = true → False := by
    simp only [idChar, Bool.or_eq_true, decide_eq_true_eq] at h
    simp only [isWs, Bool.or_eq_true, decide_eq_true_eq]
    intro hw
    omega
  cases hb : isWs c with
  | false => rfl
  | true => exact (key hb).elim

theorem dropWhile_isWs_of_not_ws {cs : List Char} (h : ∀ c ∈ cs, isWs c = false) :
    cs.dropWhile isWs = cs := by
  cases cs with
  | nil => rfl
  | cons c rest => simp [List.dropWhile_cons, h c (List.mem_cons_self c rest)]

/-- Trimming a string that is whitespace, then a body starting and ending in
non-whitespace, then whitespace, yields exactly the body. -/
theorem jsTrimL_exact {p x s : List Char} (hp : ∀ c ∈ p, isWs c = true)
    (hh : x.dropWhile isWs = x) (hl : x.reverse.dropWhile isWs = x.reverse)
    (hn : x ≠ []) (hs : ∀ c ∈ s, isWs c = true) :
    jsTrimL (p ++ x ++ s) = x := by
  have hxe : x.isEmpty = false := by
    cases x
    · exact absurd rfl hn
    · rfl
  have h1 : (p ++ (x ++ s)).dropWhile isWs = x ++ s := by
    rw [List.dropWhile_append, List.dropWhile_eq_nil_iff.mpr hp]
    simp only [List.isEmpty_nil, if_true]
    rw [List.dropWhile_append, hh, hxe]
    simp
  rw [jsTrimL, List.append_assoc, h1, List.reverse_append, List.dropWhile_append,
    List.dropWhile_eq_nil_iff.mpr (by simpa using hs)]
  simp only [List.isEmpty_nil, if_true]
  rw [hl, List.reverse_reverse]

/-- Trimming whitespace, then a body starting and ending in non-whitespace,
then an arbitrary suffix, yields the body followed by some prefix of the
suffix. -/
theorem jsTrimL_anchored {p x : List Char} (l : List Char) (hp : ∀ c ∈ p, isWs c = true)
    (hh : x.dropWhile isWs = x) (hl : x.reverse.dropWhile isWs = x.reverse)
    (hn : x ≠ []) :
    ∃ t, jsTrimL (p ++ x ++ l) = x ++ t := by
  have hxe : x.isEmpty = false := by
    cases x
    · exact absurd rfl hn
    · rfl
  have h1 : (p ++ (x ++ l)).dropWhile isWs = x ++ l := by
    rw [List.dropWhile_append, List.dropWhile_eq_nil_iff.mpr hp]
    simp only [List.isEmpty_nil, if_true]
    rw [List.dropWhile_append, hh, hxe]
    simp
  rw [jsTrimL, List.append_assoc, h1, List.reverse_append, List.dropWhile_append]
  cases he : (l.reverse.dropWhile isWs).isEmpty with
  | true =>
    refine ⟨[], ?_⟩
    simp only [if_true, List.append_nil]
    rw [hl, List.reverse_reverse]
  | false =>
    refine ⟨(l.reverse.dropWhile isWs).reverse, ?_⟩
    simp [List.reverse_append]

theorem body_head (lit v : List Char) (hlit : lit.dropWhile isWs = lit)
    (hlitne : lit.isEmpty = false) : (lit ++ v).dropWhile isWs = lit ++ v := by
  rw [List.dropWhile_append, hlit, hlitne]
  simp

theorem body_last (lit v : List Char) (hv : ∀ c ∈ v, isWs c = false)
    (hvne : v ≠ []) : (lit ++ v).reverse.dropWhile isWs = (lit ++ v).reverse := by
  rw [List.reverse_append, List.dropWhile_append,
    dropWhile_isWs_of_not_ws (by simpa using hv)]
  have hre : v.reverse.isEmpty = false := by
    simp [List.isEmpty_iff, hvne]
  rw [hre]
  simp

theorem ws_of_idChar {v : List Char} (hv : ∀ c ∈ v, idChar c = true) :
    ∀ c ∈ v, isWs c = false := fun c hc => idChar_isWs (hv c hc)

theorem ne_nil_of_len11 {v : List Char} (hlen : v.length = 11) : v ≠ [] := by
  intro h
  rw [h] at hlen
  simp at hlen

/-! ## The four recognized URL shapes hit the first pattern -/

theorem tryAt_watch {v : List Char} (t : List Char) (hlen : v.length = 11)
    (hv : ∀ c ∈ v, idChar c = true) :
    tryAt ("youtube.com/watch?v=".data ++ (v ++ t)) = some v := by
  have h1 : tryPat watchPat ("youtube.com/watch?v=".data ++ (v ++ t)) = captureId (v ++ t) := by
    rw [tryPat, watchPat, dropLit_append]
    rfl
  rw [tryAt, h1, captureId_append t hlen hv]

theorem tryAt_short {v : List Char} (t : List Char) (hlen : v.length = 11)
    (hv : ∀ c ∈ v, idChar c = true) :
    tryAt ("youtu.be/".data ++ (v ++ t)) = some v := by
  have h0 : tryPat watchPat ("youtu.be/".data ++ (v ++ t)) = none := rfl
  have h1 : tryPat shortPat ("youtu.be/".data ++ (v ++ t)) = captureId (v ++ t) := by
    rw [tryPat, shortPat, dropLit_append]
    rfl
  rw [tryAt, h0, h1, captureId_append t hlen hv]

theorem tryAt_embed {v : List Char} (t : List Char) (hlen : v.length = 11)
    (hv : ∀ c ∈ v, idChar c = true) :
    tryAt ("youtube.com/embed/".data ++ (v ++ t)) = some v := by
  have h0 : tryPat watchPat ("youtube.com/embed/".data ++ (v ++ t)) = none := rfl
  have h1 : tryPat shortPat ("youtube.com/embed/".data ++ (v ++ t)) = none := rfl
  have h2 : tryPat embedPat ("youtube.com/embed/".data ++ (v ++ t)) = captureId (v ++ t) := by
    rw [tryPat, embedPat, dropLit_append]
    rfl
  rw [tryAt, h0, h1, h2, captureId_append t hlen hv]

theorem tryAt_vpath {v : List Char} (t : List Char) (hlen : v.length = 11)
    (hv : ∀ c ∈ v, idChar c = true) :
    tryAt ("youtube.com/v/".data ++ (v ++ t)) = some v := by
  have h0 : tryPat watchPat ("youtube.com/v/".data ++ (v ++ t)) = none := rfl
  have h1 : tryPat shortPat ("youtube.com/v/".data ++ (v ++ t)) = none := rfl
  have h2 : tryPat embedPat ("youtube.com/v/".data ++ (v ++ t)) = none := rfl
  have h3 : tryPat vPat ("youtube.com/v/".data ++ (v ++ t)) = captureId (v ++ t) := by
    rw [tryPat, vPat, dropLit_append]
    rfl
  rw [tryAt, h0, h1, h2, h3, captureId_append t hlen hv]

theorem scanMatch_cons_some {c : Char} {l r : List Char} (h : tryAt (c :: l) = some r) :
    scanMatch (c :: l) = some r := by
  simp only [scanMatch]
  rw [h]

theorem scanMatch_watch {v : List Char} (t : List Char) (hlen : v.length = 11)
    (hv : ∀ c ∈ v, idChar c = true) :
    scanMatch ("https://www.youtube.com/watch?v=".data ++ (v ++ t)) = some v := by
  have hskip : scanMatch ("https://www.youtube.com/watch?v=".data ++ (v ++ t)) =
      scanMatch ("youtube.com/watch?v=".data ++ (v ++ t)) := rfl
  rw [hskip]
  exact scanMatch_cons_some (tryAt_watch t hlen hv)

theorem scanMatch_short {v : List Char} (t : List Char) (hlen : v.length = 11)
    (hv : ∀ c ∈ v, idChar c = true) :
    scanMatch ("https://youtu.be/".data ++ (v ++ t)) = some v := by
  have hskip : scanMatch ("https://youtu.be/".data ++ (v ++ t)) =
      scanMatch ("youtu.be/".data ++ (v ++ t)) := rfl
  rw [hskip]
  exact scanMatch_cons_some (tryAt_short t hlen hv)

theorem scanMatch_embed {v : List Char} (t : List Char) (hlen : v.length = 11)
    (hv : ∀ c ∈ v, idChar c = true) :
    scanMatch ("https://www.youtube.com/embed/".data ++ (v ++ t)) = some v := by
  have hskip : scanMatch ("https://www.youtube.com/embed/".data ++ (v ++ t)) =
      scanMatch ("youtube.com/embed/".data ++ (v ++ t)) := rfl
  rw [hskip]
  exact scanMatch_cons_some (tryAt_embed t hlen hv)

theorem scanMatch_vpath {v : List Char} (t : List Char) (hlen : v.length = 11)
    (hv : ∀ c ∈ v, idChar c = true) :
    scanMatch ("https://www.youtube.com/v/".data ++ (v ++ t)) = some v := by
  have hskip : scanMatch ("https://www.youtube.com/v/".data ++ (v ++ t)) =
      scanMatch ("youtube.com/v/".data ++ (v ++ t)) := rfl
  rw [hskip]
  exact scanMatch_cons_some (tryAt_vpath t hlen hv)

/-! ## Extraction plumbing -/

theorem extractVideoId_of_scan {s : String} {cap : List Char}
    (h : scanMatch s.data = some cap) : extractVideoId s = some (String.mk cap) := by
  rw [extractVideoId, h]

theorem extractVideoId_bare {v : List Char} (hlen : v.length = 11)
    (hv : ∀ c ∈ v, idChar c = true) :
    extractVideoId (String.mk v) = some (String.mk v) := by
  rw [extractVideoId]
  rw [show (String.mk v).data = v from rfl, scanMatch_none_of_idChar hv]
  simp only [hlen, beq_self_eq_true, Bool.true_and, List.all_eq_true]
  exact if_pos hv

/-! ## Track-selection lemmas -/

theorem selectTrack_en {tracks : List CaptionTrack}
    (h : ∃ t ∈ tracks, t.languageCode = "en") :
    ∃ t, selectTrack tracks = some t ∧ t ∈ tracks ∧ t.languageCode = "en" := by
  obtain ⟨u, hu, hen⟩ := h
  have hsome : (tracks.find? (fun t => t.languageCode == "en")).isSome := by
    rw [List.find?_isSome]
    exact ⟨u, hu, by simp [hen]⟩
  obtain ⟨t, ht⟩ := Option.isSome_iff_exists.mp hsome
  refine ⟨t, ?_, List.mem_of_find?_eq_some ht, by simpa using List.find?_some ht⟩
  simp [selectTrack, ht]

theorem selectTrack_no_en {tracks : List CaptionTrack}
    (h : ∀ t ∈ tracks, t.languageCode ≠ "en") :
    selectTrack tracks = tracks.head? := by
  have hnone : tracks.find? (fun t => t.languageCode == "en") = none := by
    rw [List.find?_eq_none]
    intro t ht
    simp [h t ht]
  simp [selectTrack, hnone]

theorem selectTrack_isSome {tracks : List CaptionTrack} (h : tracks ≠ []) :
    ∃ t, selectTrack tracks = some t := by
  rw [selectTrack]
  cases hf : tracks.find? (fun t => t.languageCode == "en") with
  | some t => exact ⟨t, rfl⟩
  | none =>
    cases tracks with
    | nil => exact absurd rfl h
    | cons t ts => exact ⟨t, rfl⟩

/-! ## Normalization refines the design-document wording -/

theorem normalizeEvents_eq_specNormalize (events : List TranscriptEvent) :
    normalizeEvents events = specNormalize events := by
  induction events with
  | nil => rfl
  | cons e rest ih =>
    simp only [normalizeEvents] at ih ⊢
    cases hsegs : e.segs with
    | none =>
      simp [specNormalize, List.filter_cons, hsegs, Option.isSome_none, ih]
    | some segs =>
      simp only [specNormalize, List.filter_cons, List.map_cons, hsegs, Option.isSome_some,
        Option.getD_some, if_true]
      by_cases h : jsTrim (concatSegs segs) = ""
      · simp [List.filter_cons, h, ih]
      · simp [List.filter_cons, h, ih]

/-! ## Strategy-chain lemmas -/

theorem fetchTranscript_skip {f : String → FetchJsonResult} {pre : List StrategyOutcome}
    (rest : List StrategyOutcome) (h : ∀ o ∈ pre, unproductive o = true) :
    fetchTranscript f (pre ++ rest) = fetchTranscript f rest := by
  induction pre with
  | nil => rfl
  | cons o pre ih =>
    have ho := h o (List.mem_cons_self o pre)
    have hrest : ∀ x ∈ pre, unproductive x = true :=
      fun x hx => h x (List.mem_cons_of_mem o hx)
    cases o with
    | threw m =>
      simp only [List.cons_append, fetchTranscript]
      exact ih hrest
    | returned tr =>
      cases tr with
      | none =>
        simp only [List.cons_append, fetchTranscript]
        exact ih hrest
      | some ts =>
        have hts : ts = [] := by simpa [unproductive] using ho
        subst hts
        simp only [List.cons_append, fetchTranscript, List.length_nil, lt_irrefl, if_false]
        exact ih hrest

theorem strategiesAttempted_skip {f : String → FetchJsonResult} {pre : List StrategyOutcome}
    (rest : List StrategyOutcome) (h : ∀ o ∈ pre, unproductive o = true) :
    strategiesAttempted f (pre ++ rest) = pre.length + strategiesAttempted f rest := by
  induction pre with
  | nil => simp
  | cons o pre ih =>
    have ho := h o (List.mem_cons_self o pre)
    have hrest : ∀ x ∈ pre, unproductive x = true :=
      fun x hx => h x (List.mem_cons_of_mem o hx)
    cases o with
    | threw m =>
      simp only [List.cons_append, strategiesAttempted, List.append_eq, ih hrest,
        List.length_cons]
      omega
    | returned tr =>
      cases tr with
      | none =>
        simp only [List.cons_append, strategiesAttempted, List.append_eq, ih hrest,
          List.length_cons]
        omega
      | some ts =>
        have hts : ts = [] := by simpa [unproductive] using ho
        subst hts
        simp only [List.cons_append, strategiesAttempted, List.length_nil, lt_irrefl, if_false,
          List.append_eq, ih hrest, List.length_cons]
        omega

theorem fetchTranscript_none_of_unproductive {f : String → FetchJsonResult}
    {outcomes : List StrategyOutcome} (h : ∀ o ∈ outcomes, unproductive o = true) :
    fetchTranscript f outcomes = none := by
  rw [← List.append_nil outcomes, fetchTranscript_skip [] h]
  rfl

/-! ## Concrete fixtures for witnesses and counterexamples -/

/-- An English caption track whose timed-text download turns out unusable. -/
def cxTrackA : CaptionTrack := ⟨"en", "https://captions.example/a", none⟩

/-- An English caption track whose timed-text download succeeds. -/
def cxTrackB : CaptionTrack := ⟨"en", "https://captions.example/b", none⟩

/-- A timed-text oracle: track A's payload has no `events` field, every other
URL resolves to a payload with an empty `events` array. -/
def cxFetchJson : String → FetchJsonResult := fun u =>
  if u = "https://captions.example/a&fmt=json3" then .payload ⟨none⟩
  else .payload ⟨some []⟩

/-- Two strategies in a row, each resolving with a non-empty descriptor
list. -/
def cxOutcomes : List StrategyOutcome :=
  [.returned (some [cxTrackA]), .returned (some [cxTrackB])]

/-- A player response that is not playable but carries caption tracks. -/
def cxUnplayable : PlayerResponse :=
  ⟨some ⟨some ("LOGIN_REQUIRED")⟩, some ⟨some ⟨some [cxTrackA]⟩⟩⟩

/-- The worked normalization example of the design document. -/
def cxEvents : List TranscriptEvent :=
  [⟨1000, some [⟨"Hello "⟩, ⟨"world"⟩]⟩, ⟨2000, some [⟨"  "⟩]⟩]

/-! ## Claim theorems -/

/-- C1, counterexample.  Against the claim that the first strategy yielding a
non-empty descriptor list wins with no further strategies attempted: here the
first strategy yields the non-empty list `[cxTrackA]`, yet the loop goes on to
await the second strategy (two strategies are attempted, and the final result
comes from the second one), because the `try` block of the loop also wraps
`downloadTranscript` and track A's download throws `NO_TRANSCRIPT`. -/
theorem c1_counterexample :
    cxOutcomes.head? = some (.returned (some [cxTrackA])) ∧
    ([cxTrackA] : List CaptionTrack) ≠ [] ∧
    downloadTranscript cxFetchJson [cxTrackA] = .noTranscript ∧
    strategiesAttempted cxFetchJson cxOutcomes ≠ 1 ∧
    strategiesAttempted cxFetchJson cxOutcomes = 2 ∧
    fetchTranscript cxFetchJson cxOutcomes = some [] := by
  decide

/-- C1, amended.  The first strategy to yield a non-empty caption track
descriptor list has its list passed to the download step, and when that
download succeeds no further strategies are attempted: after any prefix of
unproductive strategies (throws, `null`s, empty lists), a strategy resolving
with a non-empty list whose download returns lines ends the loop with exactly
`pre.length + 1` strategies attempted. -/
theorem c1_first_success_wins {f : String → FetchJsonResult}
    {pre rest : List StrategyOutcome} {ts : List CaptionTrack}
    {lines : List TranscriptLine}
    (hpre : ∀ o ∈ pre, unproductive o = true) (hts : ts ≠ [])
    (hdl : downloadTranscript f ts = .ok lines) :
    fetchTranscript f (pre ++ .returned (some ts) :: rest) = some lines ∧
    strategiesAttempted f (pre ++ .returned (some ts) :: rest) = pre.length + 1 := by
  have hpos : 0 < ts.length := List.length_pos.mpr hts
  constructor
  · rw [fetchTranscript_skip (.returned (some ts) :: rest) hpre]
    simp only [fetchTranscript]
    rw [if_pos hpos, hdl]
  · rw [strategiesAttempted_skip (.returned (some ts) :: rest) hpre]
    simp only [strategiesAttempted]
    rw [if_pos hpos, hdl]

/-- C1, witness: the amended theorem at a concrete input (one thrown strategy,
then a strategy with a non-empty list whose download succeeds). -/
theorem c1_witness :
    fetchTranscript cxFetchJson
        ([.threw ("HTTP 429")] ++ .returned (some [cxTrackB]) :: []) = some [] ∧
    strategiesAttempted cxFetchJson
        ([.threw ("HTTP 429")] ++ .returned (some [cxTrackB]) :: []) =
      [StrategyOutcome.threw ("HTTP 429")].length + 1 :=
  c1_first_success_wins (by decide) (by decide) (by decide)

/-- C2: when every strategy outcome is unproductive (a throw, a `null`, or an
empty descriptor list), the chain resolves to the `NO_TRANSCRIPT` failure and
the handler answers 422 with the fixed no-transcript body.  The response is a
constant: it does not depend on the individual per-strategy errors, which are
therefore never surfaced to the caller. -/
theorem c2_exhausted_chain_422 {u : String} (vid : String) (o : OembedOutcome)
    (f : String → FetchJsonResult) {outcomes : List StrategyOutcome}
    (hall : ∀ x ∈ outcomes, unproductive x = true)
    (hu : u ≠ "") (hex : extractVideoId (jsTrim u) = some vid) :
    fetchTranscript f outcomes = none ∧
    POST (some u) o outcomes f = ⟨422, .errorBody noTranscriptMsg⟩ := by
  have h1 : fetchTranscript f outcomes = none :=
    fetchTranscript_none_of_unproductive hall
  refine ⟨h1, ?_⟩
  simp only [POST, if_neg hu, hex, h1]

/-- C2, witness: a throwing strategy, a `null` strategy and an empty-list
strategy exhaust the chain and produce the 422 response. -/
theorem c2_witness :
    fetchTranscript (fun _ => .failure)
        [.threw ("blocked"), .returned none, .returned (some [])] = none ∧
    POST (some ("https://youtu.be/dQw4w9WgXcQ")) .networkError
        [.threw ("blocked"), .returned none, .returned (some [])]
        (fun _ => .failure) = ⟨422, .errorBody noTranscriptMsg⟩ :=
  c2_exhausted_chain_422 ("dQw4w9WgXcQ") .networkError (fun _ => .failure) (by decide)
    (by decide) (by decide)

/-- C3: normalization equals the specified per-event walk — one line per event
carrying a segment array, `time` = start offset divided by 1000, `text` = the
separator-free concatenation of the fragments, events without segments
skipped, lines trimming to empty dropped, order preserved — and the worked
example `[{tStartMs:1000, segs:["Hello ","world"]}, {tStartMs:2000,
segs:["  "]}]` yields exactly `[{time:1, text:"Hello world"}]`. -/
theorem c3_normalization :
    (∀ events : List TranscriptEvent, normalizeEvents events = specNormalize events) ∧
    normalizeEvents cxEvents = [⟨1, "Hello world"⟩] := by
  refine ⟨normalizeEvents_eq_specNormalize, ?_⟩
  have h1 : concatSegs [⟨"Hello "⟩, ⟨"world"⟩] = "Hello world" := by decide
  have h2 : concatSegs [⟨"  "⟩] = "  " := by decide
  have h3 : (!(jsTrim ("Hello world") == "")) = true := by decide
  have h4 : (!(jsTrim ("  ") == "")) = false := by decide
  simp only [cxEvents, normalizeEvents, List.filter, List.map, Option.isSome, Option.getD,
    h1, h2, h3, h4]
  norm_num

/-- C4: for a non-empty descriptor list, selection returns a descriptor; it is
one with language code exactly `"en"` whenever the list contains one
(regardless of its position), and otherwise it is the first element of the
list. -/
theorem c4_track_selection {tracks : List CaptionTrack} (hne : tracks ≠ []) :
    ((∃ t ∈ tracks, t.languageCode = "en") →
      ∃ t, selectTrack tracks = some t ∧ t ∈ tracks ∧ t.languageCode = "en") ∧
    ((∀ t ∈ tracks, t.languageCode ≠ "en") → selectTrack tracks = tracks.head?) ∧
    (∃ t, selectTrack tracks = some t) :=
  ⟨fun h => selectTrack_en h, fun h => selectTrack_no_en h, selectTrack_isSome hne⟩

/-- C4, witness: with an `"en"` track in second position it is selected; with
no `"en"` track the first element is selected. -/
theorem c4_witness :
    (∃ t, selectTrack [⟨"de", "u1", none⟩, ⟨"en", "u2", none⟩] = some t ∧
      t ∈ [⟨"de", "u1", none⟩, ⟨"en", "u2", none⟩] ∧ t.languageCode = "en") ∧
    selectTrack [⟨"de", "u1", none⟩, ⟨"fr", "u2", none⟩] =
      ([⟨"de", "u1", none⟩, ⟨"fr", "u2", none⟩] : List CaptionTrack).head? := by
  constructor
  · exact (c4_track_selection (by decide)).1 (by decide)
  · exact (c4_track_selection (by decide)).2.1 (by decide)

/-- C5, counterexample.  Against the claim that every strategy validates
playability: the page-scrape strategy has no playability guard, so on a
response that is not playable (`status = "LOGIN_REQUIRED"`) but carries
caption tracks it returns the descriptor list rather than nothing. -/
theorem c5_counterexample :
    playabilityOk cxUnplayable = false ∧
    fetchViaWebPage (some cxUnplayable) = some [cxTrackA] := by
  decide

/-- C5, amended.  The iOS-client and web-API strategies validate that the
response is playable and return nothing otherwise; the page-scrape strategy
performs no playability validation and can return a descriptor list for an
unplayable response. -/
theorem c5_playability :
    (∀ d : PlayerResponse, playabilityOk d = false → fetchViaIOS d = none) ∧
    (∀ d : PlayerResponse, playabilityOk d = false → fetchViaWebAPI d = none) ∧
    ¬ (∀ d : PlayerResponse, playabilityOk d = false → fetchViaWebPage (some d) = none) := by
  refine ⟨fun d h => ?_, fun d h => ?_, fun hall => ?_⟩
  · simp [fetchViaIOS, h]
  · simp [fetchViaWebAPI, h]
  · exact absurd (hall cxUnplayable (by decide)) (by decide)

/-- C5, witness: the amended theorem applied to the concrete unplayable
response. -/
theorem c5_witness :
    fetchViaIOS cxUnplayable = none ∧ fetchViaWebAPI cxUnplayable = none :=
  ⟨c5_playability.1 cxUnplayable (by decide), c5_playability.2.1 cxUnplayable (by decide)⟩

/-- C7: when extraction fails on the trimmed input (and the `url` field is a
non-empty string), the handler answers 400 `Invalid YouTube URL`; the response
is independent of the metadata, strategy and timed-text oracles, so neither
the metadata lookup nor any retrieval strategy influences it. -/
theorem c7_invalid_url_400 {u : String} (hu : u ≠ "")
    (hex : extractVideoId (jsTrim u) = none) :
    ∀ (o : OembedOutcome) (s : List StrategyOutcome) (f : String → FetchJsonResult),
      POST (some u) o s f = ⟨400, .errorBody invalidUrlMsg⟩ := by
  intro o s f
  simp only [POST, if_neg hu, hex]

/-- C7, witness: the unrecognized input `"not a url"` is rejected with 400. -/
theorem c7_witness :
    POST (some ("not a url")) .networkError [] (fun _ => .failure) =
      ⟨400, .errorBody invalidUrlMsg⟩ :=
  c7_invalid_url_400 (by decide) (by decide) .networkError [] (fun _ => .failure)

/-- C8: on every failure mode of the metadata lookup (network error,
non-success response, malformed payload) no error propagates: the lookup
returns the placeholder `VideoMeta` whose thumbnail is exactly
`https://i.ytimg.com/vi/<id>/hqdefault.jpg`, and a request whose transcript
retrieval succeeds still completes with a 200 response carrying that
fallback metadata. -/
theorem c8_meta_fallback (videoId : String) {o : OembedOutcome}
    (hfail : oembedFailed o = true) :
    fetchVideoMeta videoId o = ⟨placeholderTitle, thumbnailUrl videoId⟩ ∧
    ∀ (u : String) (s : List StrategyOutcome) (f : String → FetchJsonResult)
      (lines : List TranscriptLine),
      u ≠ "" → extractVideoId (jsTrim u) = some videoId →
      fetchTranscript f s = some lines →
      POST (some u) o s f =
        ⟨200, .successBody placeholderTitle (thumbnailUrl videoId) videoId lines⟩ := by
  have hmeta : fetchVideoMeta videoId o = ⟨placeholderTitle, thumbnailUrl videoId⟩ := by
    cases o with
    | networkError => rfl
    | httpNotOk => rfl
    | malformedPayload => rfl
    | payload t => exact absurd hfail (by simp [oembedFailed])
  refine ⟨hmeta, fun u s f lines hu hex hft => ?_⟩
  simp only [POST, if_neg hu, hex, hft, hmeta]

/-- C8, witness: a network error on the oEmbed call still yields a complete
200 response with placeholder title and identifier-derived thumbnail. -/
theorem c8_witness :
    fetchVideoMeta ("dQw4w9WgXcQ") .networkError =
      ⟨placeholderTitle, thumbnailUrl ("dQw4w9WgXcQ")⟩ ∧
    POST (some ("https://youtu.be/dQw4w9WgXcQ")) .networkError
        [.returned (some [cxTrackB])] cxFetchJson =
      ⟨200, .successBody placeholderTitle (thumbnailUrl ("dQw4w9WgXcQ")) "dQw4w9WgXcQ" []⟩ := by
  have h := c8_meta_fallback ("dQw4w9WgXcQ") (o := .networkError) (by decide)
  exact ⟨h.1, h.2 ("https://youtu.be/dQw4w9WgXcQ") [.returned (some [cxTrackB])] cxFetchJson []
    (by decide) (by decide) (by decide)⟩

/-! ## Per-shape extraction lemmas -/

theorem jsTrimL_eq_self {x : List Char} (hh : x.dropWhile isWs = x)
    (hl : x.reverse.dropWhile isWs = x.reverse) : jsTrimL x = x := by
  rw [jsTrimL, hh, hl, List.reverse_reverse]

theorem extract_watch (v q p1 p2 : List Char) (hlen : v.length = 11)
    (hv : ∀ c ∈ v, idChar c = true) (hp1 : ∀ c ∈ p1, isWs c = true)
    (hp2 : ∀ c ∈ p2, isWs c = true) :
    extractVideoId (jsTrim (String.mk
      (p1 ++ "https://www.youtube.com/watch?v=".data ++ v ++ q ++ p2))) =
      some (String.mk v) := by
  have hvne := ne_nil_of_len11 hlen
  have hvws := ws_of_idChar hv
  have hbody : ("https://www.youtube.com/watch?v=".data ++ v) ≠ [] := by simp [hvne]
  have hregroup : p1 ++ "https://www.youtube.com/watch?v=".data ++ v ++ q ++ p2 =
      p1 ++ ("https://www.youtube.com/watch?v=".data ++ v) ++ (q ++ p2) := by
    simp [List.append_assoc]
  obtain ⟨t, ht⟩ := jsTrimL_anchored (q ++ p2) hp1 (body_head ("https://www.youtube.com/watch?v=".data) v rfl rfl)
    (body_last ("https://www.youtube.com/watch?v=".data) v hvws hvne) hbody
  rw [show jsTrim (String.mk (p1 ++ "https://www.youtube.com/watch?v=".data ++ v ++ q ++ p2)) =
      String.mk (jsTrimL (p1 ++ "https://www.youtube.com/watch?v=".data ++ v ++ q ++ p2))
      from rfl, hregroup, ht, extractVideoId]
  rw [show (String.mk ("https://www.youtube.com/watch?v=".data ++ v ++ t)).data =
      "https://www.youtube.com/watch?v=".data ++ (v ++ t) from by simp [List.append_assoc]]
  rw [scanMatch_watch t hlen hv]

theorem extract_short (v p1 p2 : List Char) (hlen : v.length = 11)
    (hv : ∀ c ∈ v, idChar c = true) (hp1 : ∀ c ∈ p1, isWs c = true)
    (hp2 : ∀ c ∈ p2, isWs c = true) :
    extractVideoId (jsTrim (String.mk
      (p1 ++ "https://youtu.be/".data ++ v ++ p2))) = some (String.mk v) := by
  have hvne := ne_nil_of_len11 hlen
  have hvws := ws_of_idChar hv
  have hbody : ("https://youtu.be/".data ++ v) ≠ [] := by simp [hvne]
  have hregroup : p1 ++ "https://youtu.be/".data ++ v ++ p2 =
      p1 ++ ("https://youtu.be/".data ++ v) ++ p2 := by
    simp [List.append_assoc]
  have ht := jsTrimL_exact hp1 (body_head ("https://youtu.be/".data) v rfl rfl)
    (body_last ("https://youtu.be/".data) v hvws hvne) hbody hp2
  have hs := scanMatch_short [] hlen hv
  rw [List.append_nil] at hs
  rw [show jsTrim (String.mk (p1 ++ "https://youtu.be/".data ++ v ++ p2)) =
      String.mk (jsTrimL (p1 ++ "https://youtu.be/".data ++ v ++ p2)) from rfl,
    hregroup, ht, extractVideoId]
  rw [show (String.mk ("https://youtu.be/".data ++ v)).data =
      "https://youtu.be/".data ++ v from rfl, hs]

theorem extract_embed (v p1 p2 : List Char) (hlen : v.length = 11)
    (hv : ∀ c ∈ v, idChar c = true) (hp1 : ∀ c ∈ p1, isWs c = true)
    (hp2 : ∀ c ∈ p2, isWs c = true) :
    extractVideoId (jsTrim (String.mk
      (p1 ++ "https://www.youtube.com/embed/".data ++ v ++ p2))) = some (String.mk v) := by
  have hvne := ne_nil_of_len11 hlen
  have hvws := ws_of_idChar hv
  have hbody : ("https://www.youtube.com/embed/".data ++ v) ≠ [] := by simp [hvne]
  have hregroup : p1 ++ "https://www.youtube.com/embed/".data ++ v ++ p2 =
      p1 ++ ("https://www.youtube.com/embed/".data ++ v) ++ p2 := by
    simp [List.append_assoc]
  have ht := jsTrimL_exact hp1 (body_head ("https://www.youtube.com/embed/".data) v rfl rfl)
    (body_last ("https://www.youtube.com/embed/".data) v hvws hvne) hbody hp2
  have hs := scanMatch_embed [] hlen hv
  rw [List.append_nil] at hs
  rw [show jsTrim (String.mk (p1 ++ "https://www.youtube.com/embed/".data ++ v ++ p2)) =
      String.mk (jsTrimL (p1 ++ "https://www.youtube.com/embed/".data ++ v ++ p2)) from rfl,
    hregroup, ht, extractVideoId]
  rw [show (String.mk ("https://www.youtube.com/embed/".data ++ v)).data =
      "https://www.youtube.com/embed/".data ++ v from rfl, hs]

theorem extract_bare (v p1 p2 : List Char) (hlen : v.length = 11)
    (hv : ∀ c ∈ v, idChar c = true) (hp1 : ∀ c ∈ p1, isWs c = true)
    (hp2 : ∀ c ∈ p2, isWs c = true) :
    extractVideoId (jsTrim (String.mk (p1 ++ v ++ p2))) = some (String.mk v) := by
  have hvne := ne_nil_of_len11 hlen
  have hvws := ws_of_idChar hv
  have ht := jsTrimL_exact hp1 (dropWhile_isWs_of_not_ws hvws)
    (dropWhile_isWs_of_not_ws (by simpa using hvws)) hvne hp2
  rw [show jsTrim (String.mk (p1 ++ v ++ p2)) =
      String.mk (jsTrimL (p1 ++ v ++ p2)) from rfl, ht]
  exact extractVideoId_bare hlen hv

theorem extract_vpath (v : List Char) (hlen : v.length = 11)
    (hv : ∀ c ∈ v, idChar c = true) :
    extractVideoId (jsTrim (String.mk ("https://www.youtube.com/v/".data ++ v))) =
      some (String.mk v) := by
  have hvne := ne_nil_of_len11 hlen
  have hvws := ws_of_idChar hv
  have ht := jsTrimL_eq_self (body_head ("https://www.youtube.com/v/".data) v rfl rfl)
    (body_last ("https://www.youtube.com/v/".data) v hvws hvne)
  have hs := scanMatch_vpath [] hlen hv
  rw [List.append_nil] at hs
  rw [show jsTrim (String.mk ("https://www.youtube.com/v/".data ++ v)) =
      String.mk (jsTrimL ("https://www.youtube.com/v/".data ++ v)) from rfl, ht,
    extractVideoId]
  rw [show (String.mk ("https://www.youtube.com/v/".data ++ v)).data =
      "https://www.youtube.com/v/".data ++ v from rfl, hs]

/-- C6: for every 11-character identifier from the id character class, every
recognized URL shape — watch URL (with an arbitrary trailing remainder, in
particular extra query parameters), short-link, embed URL, and the bare
identifier — is accepted by extraction, after surrounding whitespace is
trimmed, and all shapes yield the same identifier. -/
theorem c6_url_shapes (v q p1 p2 : List Char) (hlen : v.length = 11)
    (hv : ∀ c ∈ v, idChar c = true) (hp1 : ∀ c ∈ p1, isWs c = true)
    (hp2 : ∀ c ∈ p2, isWs c = true) :
    extractVideoId (jsTrim (String.mk
      (p1 ++ "https://www.youtube.com/watch?v=".data ++ v ++ q ++ p2))) =
        some (String.mk v) ∧
    extractVideoId (jsTrim (String.mk
      (p1 ++ "https://youtu.be/".data ++ v ++ p2))) = some (String.mk v) ∧
    extractVideoId (jsTrim (String.mk
      (p1 ++ "https://www.youtube.com/embed/".data ++ v ++ p2))) = some (String.mk v) ∧
    extractVideoId (jsTrim (String.mk (p1 ++ v ++ p2))) = some (String.mk v) :=
  ⟨extract_watch v q p1 p2 hlen hv hp1 hp2, extract_short v p1 p2 hlen hv hp1 hp2,
    extract_embed v p1 p2 hlen hv hp1 hp2, extract_bare v p1 p2 hlen hv hp1 hp2⟩

/-- C6, witness: the identifier `dQw4w9WgXcQ` wrapped in the four shapes, with
whitespace padding and an extra query parameter on the watch URL. -/
theorem c6_witness :
    extractVideoId (jsTrim (String.mk
      (" ".data ++ "https://www.youtube.com/watch?v=".data ++ "dQw4w9WgXcQ".data ++
        "&t=42s".data ++ "\n".data))) = some (String.mk ("dQw4w9WgXcQ".data)) ∧
    extractVideoId (jsTrim (String.mk
      (" ".data ++ "https://youtu.be/".data ++ "dQw4w9WgXcQ".data ++ "\n".data))) =
      some (String.mk ("dQw4w9WgXcQ".data)) ∧
    extractVideoId (jsTrim (String.mk
      (" ".data ++ "https://www.youtube.com/embed/".data ++ "dQw4w9WgXcQ".data ++
        "\n".data))) = some (String.mk ("dQw4w9WgXcQ".data)) ∧
    extractVideoId (jsTrim (String.mk
      (" ".data ++ "dQw4w9WgXcQ".data ++ "\n".data))) = some (String.mk ("dQw4w9WgXcQ".data)) :=
  c6_url_shapes ("dQw4w9WgXcQ".data) ("&t=42s".data) (" ".data) ("\n".data)
    (by decide) (by decide) (by decide) (by decide)

/-- C9: when a strategy yields a non-empty descriptor list and the downloaded
payload has an `events` collection in which every event either lacks a
segment array or concatenates to whitespace-only text, normalization yields
the empty list and the handler answers 200 with an empty transcript array —
not the 422 no-transcript error. -/
theorem c9_blank_payload_200 (evs : List TranscriptEvent)
    (hblank : ∀ e ∈ evs, ∀ s, e.segs = some s → jsTrim (concatSegs s) = "") :
    normalizeEvents evs = [] ∧
    ∀ (u vid : String) (o : OembedOutcome) (tracks : List CaptionTrack)
      (pre : List StrategyOutcome) (f : String → FetchJsonResult),
      u ≠ "" → extractVideoId (jsTrim u) = some vid → tracks ≠ [] →
      (∀ x ∈ pre, unproductive x = true) →
      (∀ a, f a = .payload ⟨some evs⟩) →
      POST (some u) o (pre ++ [.returned (some tracks)]) f =
        ⟨200, .successBody (fetchVideoMeta vid o).title (fetchVideoMeta vid o).thumbnail
          vid []⟩ := by
  have h1 : normalizeEvents evs = [] := by
    rw [normalizeEvents, List.filter_eq_nil_iff]
    intro line hline
    obtain ⟨e, he, rfl⟩ := List.mem_map.mp hline
    obtain ⟨hee, hsome⟩ := List.mem_filter.mp he
    obtain ⟨s, hs⟩ := Option.isSome_iff_exists.mp hsome
    have hb := hblank e hee s hs
    simp [hs, hb]
  refine ⟨h1, fun u vid o tracks pre f hu hex htr hpre hf => ?_⟩
  obtain ⟨track, htrack⟩ := selectTrack_isSome htr
  have hdl : downloadTranscript f tracks = .ok [] := by
    simp only [downloadTranscript, htrack, hf, h1]
  have hft : fetchTranscript f (pre ++ [.returned (some tracks)]) = some [] := by
    rw [fetchTranscript_skip [.returned (some tracks)] hpre]
    simp only [fetchTranscript]
    rw [if_pos (List.length_pos.mpr htr), hdl]
  simp only [POST, if_neg hu, hex, hft]

/-- C9, witness: a payload whose events lack segments or trim to whitespace
produces the empty transcript and a 200 response. -/
theorem c9_witness :
    normalizeEvents [⟨0, none⟩, ⟨2000, some [⟨"  "⟩]⟩] = [] ∧
    POST (some ("https://youtu.be/dQw4w9WgXcQ")) .networkError
        ([.threw ("blocked")] ++ [.returned (some [cxTrackB])])
        (fun _ => .payload ⟨some [⟨0, none⟩, ⟨2000, some [⟨"  "⟩]⟩]⟩) =
      ⟨200, .successBody (fetchVideoMeta ("dQw4w9WgXcQ") .networkError).title
        (fetchVideoMeta ("dQw4w9WgXcQ") .networkError).thumbnail "dQw4w9WgXcQ" []⟩ := by
  have h := c9_blank_payload_200 [⟨0, none⟩, ⟨2000, some [⟨"  "⟩]⟩] (by decide)
  exact ⟨h.1, h.2 ("https://youtu.be/dQw4w9WgXcQ") "dQw4w9WgXcQ" .networkError [cxTrackB]
    [.threw ("blocked")] (fun _ => .payload ⟨some [⟨0, none⟩, ⟨2000, some [⟨"  "⟩]⟩]⟩)
    (by decide) (by decide) (by decide) (by decide) (fun _ => rfl)⟩

/-- C10: the UI plausibility check is strictly narrower than server-side
extraction: every bare 11-character identifier and every
`youtube.com/v/` URL is rejected by `isYouTubeUrl` (so the UI shows the
validation error and sends no request), although `extractVideoId` accepts the
same input at the HTTP boundary. -/
theorem c10_ui_gap (v : List Char) (hlen : v.length = 11)
    (hv : ∀ c ∈ v, idChar c = true) :
    isYouTubeUrl (String.mk v) = false ∧
    uiFetchTranscript (String.mk v) = .showError uiInvalidMsg ∧
    extractVideoId (jsTrim (String.mk v)) = some (String.mk v) ∧
    isYouTubeUrl (String.mk ("https://www.youtube.com/v/".data ++ v)) = false ∧
    uiFetchTranscript (String.mk ("https://www.youtube.com/v/".data ++ v)) =
      .showError uiInvalidMsg ∧
    extractVideoId (jsTrim (String.mk ("https://www.youtube.com/v/".data ++ v))) =
      some (String.mk v) := by
  have hvne := ne_nil_of_len11 hlen
  have hvws := ws_of_idChar hv
  have hjsv : jsTrim (String.mk v) = String.mk v := by
    rw [show jsTrim (String.mk v) = String.mk (jsTrimL v) from rfl,
      jsTrimL_eq_self (dropWhile_isWs_of_not_ws hvws)
        (dropWhile_isWs_of_not_ws (by simpa using hvws))]
  have hyt1 : isYouTubeUrl (String.mk v) = false := by
    rw [isYouTubeUrl, hjsv, show (String.mk v).data = v from rfl,
      hasLit_eq_false_of_idChar (by decide) hv, hasLit_eq_false_of_idChar (by decide) hv,
      hasLit_eq_false_of_idChar (by decide) hv]
    decide
  have hne1 : String.mk v ≠ "" := by
    intro h
    exact hvne (congrArg String.data h)
  have hui1 : uiFetchTranscript (String.mk v) = .showError uiInvalidMsg := by
    have hcond : ¬(jsTrim (String.mk v) = "") := by
      rw [hjsv]
      exact hne1
    rw [uiFetchTranscript, if_neg hcond, hyt1]
    rfl
  have hex1 : extractVideoId (jsTrim (String.mk v)) = some (String.mk v) := by
    rw [hjsv]
    exact extractVideoId_bare hlen hv
  have hjs2 : jsTrim (String.mk ("https://www.youtube.com/v/".data ++ v)) =
      String.mk ("https://www.youtube.com/v/".data ++ v) := by
    rw [show jsTrim (String.mk ("https://www.youtube.com/v/".data ++ v)) =
      String.mk (jsTrimL ("https://www.youtube.com/v/".data ++ v)) from rfl,
      jsTrimL_eq_self (body_head ("https://www.youtube.com/v/".data) v rfl rfl)
        (body_last ("https://www.youtube.com/v/".data) v hvws hvne)]
  have hskip1 : hasLit watchPat ("https://www.youtube.com/v/".data ++ v) =
      hasLit watchPat v := rfl
  have hskip2 : hasLit shortPat ("https://www.youtube.com/v/".data ++ v) =
      hasLit shortPat v := rfl
  have hskip3 : hasLit embedPat ("https://www.youtube.com/v/".data ++ v) =
      hasLit embedPat v := rfl
  have hyt2 : isYouTubeUrl (String.mk ("https://www.youtube.com/v/".data ++ v)) = false := by
    rw [isYouTubeUrl, hjs2,
      show (String.mk ("https://www.youtube.com/v/".data ++ v)).data =
        "https://www.youtube.com/v/".data ++ v from rfl,
      hskip1, hskip2, hskip3,
      hasLit_eq_false_of_idChar (by decide) hv, hasLit_eq_false_of_idChar (by decide) hv,
      hasLit_eq_false_of_idChar (by decide) hv]
    decide
  have hne2 : String.mk ("https://www.youtube.com/v/".data ++ v) ≠ "" := by
    intro h
    have := congrArg String.data h
    simp at this
  have hui2 : uiFetchTranscript (String.mk ("https://www.youtube.com/v/".data ++ v)) =
      .showError uiInvalidMsg := by
    have hcond : ¬(jsTrim (String.mk ("https://www.youtube.com/v/".data ++ v)) = "") := by
      rw [hjs2]
      exact hne2
    rw [uiFetchTranscript, if_neg hcond, hyt2]
    rfl
  exact ⟨hyt1, hui1, hex1, hyt2, hui2, extract_vpath v hlen hv⟩

/-- C10, witness: the bare identifier `dQw4w9WgXcQ` and its
`youtube.com/v/` URL are rejected by the UI check but accepted by server-side
extraction. -/
theorem c10_witness :
    isYouTubeUrl (String.mk ("dQw4w9WgXcQ".data)) = false ∧
    uiFetchTranscript (String.mk ("dQw4w9WgXcQ".data)) = .showError uiInvalidMsg ∧
    extractVideoId (jsTrim (String.mk ("dQw4w9WgXcQ".data))) =
      some (String.mk ("dQw4w9WgXcQ".data)) ∧
    isYouTubeUrl (String.mk ("https://www.youtube.com/v/".data ++ "dQw4w9WgXcQ".data)) =
      false ∧
    uiFetchTranscript (String.mk ("https://www.youtube.com/v/".data ++ "dQw4w9WgXcQ".data)) =
      .showError uiInvalidMsg ∧
    extractVideoId (jsTrim (String.mk
      ("https://www.youtube.com/v/".data ++ "dQw4w9WgXcQ".data))) =
      some (String.mk ("dQw4w9WgXcQ".data)) :=
  c10_ui_gap ("dQw4w9WgXcQ".data) (by decide) (by decide)

end YT
